import Mathlib

/-!
Verification of the MCQ-generator web endpoint (`src/api/index.py`).

We shallowly embed the program's pure helpers (`allowed_file`, the text
extractor, the PDF renderer's block loop, question-count parsing) and the
`/generate` request handler as Lean functions.  Strings are `List Char`;
the scratch filesystem is an association list from paths to file nodes;
external collaborators (werkzeug's `secure_filename`, the Gemini call,
`tempfile.gettempdir`, `os.remove` failures) are oracle parameters.
Python exceptions are modelled with `Except`.
-/

namespace Mcq

/-- Python whitespace characters recognised by `str.strip()` / `int()`
(ASCII fragment). -/
def isPySpace (c : Char) : Bool :=
  decide (c = ' ') || decide (c = '\t') || decide (c = '\n') ||
  decide (c = '\r') || decide (c = '\x0b') || decide (c = '\x0c')

/-- Python `s.strip()`: drop whitespace from both ends. -/
def pyStrip (s : List Char) : List Char :=
  ((s.dropWhile isPySpace).reverse.dropWhile isPySpace).reverse

/-- Python `s.lower()` (ASCII-adequate model). -/
def pyLower (s : List Char) : List Char :=
  s.map Char.toLower

/-- Whether `'.'` occurs in the string (Python `'.' in filename`). -/
def hasDot (s : List Char) : Bool :=
  s.any (fun c => decide (c = '.'))

/-- The characters after the last `'.'` of the string (meaningful when a
dot is present): Python `s.rsplit('.', 1)[1]`. -/
def extAfterLastDot (s : List Char) : List Char :=
  (s.reverse.takeWhile (fun c => decide (c ≠ '.'))).reverse

/-- The characters before the last `'.'`, or the whole string when no dot
is present: Python `s.rsplit('.', 1)[0]`. -/
def baseName (s : List Char) : List Char :=
  if hasDot s then
    ((s.reverse.dropWhile (fun c => decide (c ≠ '.'))).tail).reverse
  else s

/-- Boolean list-prefix test on characters. -/
def isPrefixL : List Char → List Char → Bool
  | [], _ => true
  | _ :: _, [] => false
  | a :: as, b :: bs => decide (a = b) && isPrefixL as bs

/-- Fuelled worker for Python `str.split(sep)` with a non-empty separator:
leftmost non-overlapping occurrences of `sep` split the string. Fuel at
least the length of the string is always sufficient. -/
def pySplitGo (sep : List Char) : Nat → List Char → List (List Char)
  | 0, s => [s]
  | Nat.succ fuel, s =>
    match s with
    | [] => [[]]
    | c :: rest =>
      if isPrefixL sep s then
        [] :: pySplitGo sep fuel (s.drop sep.length)
      else
        match pySplitGo sep fuel rest with
        | [] => [[c]]
        | t :: ts => (c :: t) :: ts

/-- Python `s.split(sep)` for non-empty `sep`. -/
def pySplit (s sep : List Char) : List (List Char) :=
  pySplitGo sep s.length s

/-- ASCII decimal digit test. -/
def isDigitC (c : Char) : Bool :=
  decide ('0' ≤ c) && decide (c ≤ '9')

/-- After an initial digit, Python's integer-literal grammar allows
further digits with single underscores strictly between digits. -/
def validTail : List Char → Bool
  | [] => true
  | '_' :: d :: rest => isDigitC d && validTail rest
  | '_' :: [] => false
  | d :: rest => isDigitC d && validTail rest

/-- Digit group of a Python integer literal: `digit (underscore? digit)*`. -/
def validIntBody : List Char → Bool
  | [] => false
  | c :: rest => isDigitC c && validTail rest

/-- Numeric value of a digit/underscore group (underscores skipped). -/
def digitsVal (l : List Char) : Nat :=
  l.foldl (fun acc c => if c = '_' then acc else acc * 10 + (c.toNat - '0'.toNat)) 0

/-- Python `int(s)` on a string: strip whitespace, optional sign, then a
digit group; `none` models the raised `ValueError`. -/
def pyInt (s : List Char) : Option Int :=
  let t := pyStrip s
  match t with
  | '+' :: rest => if validIntBody rest then some (Int.ofNat (digitsVal rest)) else none
  | '-' :: rest => if validIntBody rest then some (-(Int.ofNat (digitsVal rest))) else none
  | _ => if validIntBody t then some (Int.ofNat (digitsVal t)) else none

/-- Python `str(n)` for an `int` (decimal representation). -/
def pyIntRepr (n : Int) : List Char :=
  if n < 0 then '-' :: Nat.toDigits 10 n.natAbs else Nat.toDigits 10 n.natAbs

/-- POSIX `os.path.join(a, b)`: an absolute second component replaces the
first, otherwise a separator is inserted unless `a` already ends in one. -/
def pyJoin (a b : List Char) : List Char :=
  if b.head? = some '/' then b
  else if a.getLast? = some '/' then a ++ b
  else a ++ '/' :: b

/-- Exceptions the embedded code can raise, one constructor per Python
exception site: `IndexError` from `rsplit('.',1)[1]` on a dotless path,
`OSError` from opening a missing/unreadable file, parse errors from
`pdfplumber.open` / `docx.Document` on corrupt documents,
`UnicodeDecodeError` from reading a non-UTF-8 `.txt`, `ValueError` from
`int()`, and an error raised by the external Gemini call. -/
inductive PyErr where
  | indexError
  | ioError
  | pdfParseError
  | docxParseError
  | unicodeDecodeError
  | valueError
  | apiError (msg : List Char)
deriving DecidableEq, Repr

/-- Model of Python `str(e)` for the exceptions above, used to build the
handler's 500 response body. -/
def errStr : PyErr → List Char
  | .indexError => "list index out of range".toList
  | .ioError => "No such file or directory".toList
  | .pdfParseError => "No /Root object".toList
  | .docxParseError => "file is not a zip file".toList
  | .unicodeDecodeError => "invalid utf-8 byte".toList
  | .valueError => "invalid literal for int with base 10".toList
  | .apiError msg => msg

/-- Abstract content of an uploaded file, as seen through the three
parsers the extractor can apply to it.  `asPdf = some pages` means
`pdfplumber.open` succeeds and `pages` lists each page's
`extract_text()` result (`none` = the page yields no text); `asPdf =
none` means `pdfplumber.open` raises (corrupt document).  Likewise
`asDocx` gives the paragraph texts or a raised parse error, and `asTxt`
gives the UTF-8 decoded contents or a raised `UnicodeDecodeError`. -/
structure FileContent where
  asPdf : Option (List (Option (List Char)))
  asDocx : Option (List (List Char))
  asTxt : Option (List Char)
deriving DecidableEq, Repr

/-- A file on scratch storage: either a saved upload or the PDF document
written by `create_pdf` (recorded as its sequence of rendered blocks).
The code never re-reads an artifact, so the extractor treats one like an
unreadable file. -/
inductive FileNode where
  | upload (c : FileContent)
  | artifact (blocks : List (List Char))
deriving DecidableEq, Repr

/-- The scratch filesystem: an association list from paths to nodes.  A
path absent from the list models a missing/unreadable file (opening it
raises `OSError`). -/
def Fs : Type := List (List Char × FileNode)

/-- Look a path up in the filesystem. -/
def lookupFs (p : List Char) : Fs → Option FileNode
  | [] => none
  | e :: rest => if e.1 = p then some e.2 else lookupFs p rest

/-- `os.remove`: drop every entry at the path. -/
def removeFs (p : List Char) : Fs → Fs
  | [] => []
  | e :: rest => if e.1 = p then removeFs p rest else e :: removeFs p rest

/-- Write a file (Python `file.save` / `pdf.output`), overwriting any
previous file at the path. -/
def insertFs (p : List Char) (d : FileNode) (fs : Fs) : Fs :=
  (p, d) :: removeFs p fs

/-- `app.config['ALLOWED_EXTENSIONS'] = {'pdf', 'txt', 'docx'}`. -/
def allowedExtensions : List (List Char) :=
  ["pdf".toList, "txt".toList, "docx".toList]

/-- `allowed_file`: `'.' in filename and
filename.rsplit('.', 1)[1].lower() in app.config['ALLOWED_EXTENSIONS']`. -/
def allowed_file (filename : List Char) : Bool :=
  hasDot filename && decide (pyLower (extAfterLastDot filename) ∈ allowedExtensions)

/-- The PDF branch of the extractor:
`''.join([page.extract_text() for page in pdf.pages if page.extract_text()])`
— keep each page's text when it is truthy (neither `None` nor empty) and
concatenate with no separator. -/
def pagesText (pages : List (Option (List Char))) : List Char :=
  (pages.filterMap (fun o =>
    match o with
    | some t => if t = [] then none else some t
    | none => none)).flatten

/-- The DOCX branch: `' '.join([para.text for para in doc.paragraphs])`. -/
def spaceJoin (paras : List (List Char)) : List Char :=
  List.intercalate [' '] paras

/-- `extract_text_from_file(file_path)`: compute the lower-cased last
extension (raising `IndexError` when the path has no dot), then dispatch:
PDF page-text concatenation, DOCX paragraph join, UTF-8 text read, and
`None` for any other extension.  The Python body has no try/except, so
every library failure propagates to the caller. -/
def extract_text_from_file (fs : Fs) (file_path : List Char) :
    Except PyErr (Option (List Char)) :=
  if hasDot file_path = false then .error .indexError
  else
    let ext := pyLower (extAfterLastDot file_path)
    if ext = "pdf".toList then
      match lookupFs file_path fs with
      | some (.upload fc) =>
        match fc.asPdf with
        | some pages => .ok (some (pagesText pages))
        | none => .error .pdfParseError
      | _ => .error .ioError
    else if ext = "docx".toList then
      match lookupFs file_path fs with
      | some (.upload fc) =>
        match fc.asDocx with
        | some paras => .ok (some (spaceJoin paras))
        | none => .error .docxParseError
      | _ => .error .ioError
    else if ext = "txt".toList then
      match lookupFs file_path fs with
      | some (.upload fc) =>
        match fc.asTxt with
        | some s => .ok (some s)
        | none => .error .unicodeDecodeError
      | _ => .error .ioError
    else .ok none

/-- The block marker `"## MCQ"`. -/
def marker : List Char := "## MCQ".toList

/-- The rendering loop of `create_pdf`: split the raw text on the marker
and, for each segment whose stripped form is non-empty, emit the stripped
segment (`pdf.multi_cell(0, 10, mcq.strip())` followed by `pdf.ln(5)`). -/
def renderedBlocks (mcqs : List Char) : List (List Char) :=
  (pySplit mcqs marker).filterMap (fun mcq =>
    let s := pyStrip mcq
    if s = [] then none else some s)

/-- External collaborators and ambient environment of one request:
`tempfile.gettempdir()`, werkzeug's `secure_filename`, the Gemini
`model.generate_content` call (`.error` = any exception from the
service), and whether `os.remove` raises at a given path. -/
structure Oracles where
  tmpdir : List Char
  secure : List Char → List Char
  generate_content : List Char → Except PyErr (List Char)
  removeFails : List Char → Bool

/-- The `file` part of the multipart form: the client-supplied filename
and the abstract content of the stream. -/
structure UploadedFile where
  filename : List Char
  content : FileContent

/-- A `/generate` request: `request.files['file']` (`none` = no `file`
key) and the `num_questions` form field (`none` = absent). -/
structure Request where
  file : Option UploadedFile
  num_questions : Option (List Char)

/-- A response: `jsonify({"error": msg}), status` or the 200
`results.html` view (which carries the raw mcqs text and the generated
PDF's filename; `txt_filename` is the constant `None` and `pdf_content`
duplicates `mcqs`, so neither is recorded). -/
inductive Response where
  | json (status : Nat) (error : List Char)
  | html (mcqs : List Char) (pdf_filename : List Char)
deriving DecidableEq, Repr

def noFileMsg : List Char := "No file uploaded.".toList

def invalidFormatMsg : List Char :=
  "Invalid file format. Please upload PDF, DOCX, or TXT files.".toList

def couldNotExtractMsg : List Char :=
  "Could not extract text from the file.".toList

/-- The 500 body `f"An error occurred: {str(e)}"`. -/
def genericMsg (e : PyErr) : List Char :=
  "An error occurred: ".toList ++ errStr e

/-- The fixed pieces of the prompt f-string of
`generate_mcqs_with_gemini`. -/
def promptPre : List Char :=
  ("\nYou are an AI assistant helping the user generate multiple-choice " ++
   "questions (MCQs) from the text below:\n\nText:\n").toList

def promptMid : List Char := "\n\nGenerate ".toList

def promptPost : List Char :=
  (" MCQs. Each should include:\n- A clear question\n- Four answer options " ++
   "labeled A, B, C, and D\n- The correct answer clearly indicated at the " ++
   "end\n\nFormat:\n## MCQ\nQuestion: [question]\nA) [option A]\nB) [option B]\n" ++
   "C) [option C]\nD) [option D]\nCorrect Answer: [correct option]\n").toList

/-- The prompt with the extracted text and the question count spliced in. -/
def buildPrompt (text : List Char) (n : Int) : List Char :=
  promptPre ++ text ++ promptMid ++ pyIntRepr n ++ promptPost

/-- `generate_mcqs_with_gemini(text, num_questions)`: build the prompt,
call the external service, return `response.text.strip()`; service
errors propagate. -/
def generate_mcqs_with_gemini (O : Oracles) (text : List Char) (n : Int) :
    Except PyErr (List Char) :=
  match O.generate_content (buildPrompt text n) with
  | .ok t => .ok (pyStrip t)
  | .error e => .error e

/-- `create_pdf(mcqs, filename)`: render the non-empty stripped segments
of `mcqs.split("## MCQ")` into a PDF written at
`os.path.join(tempfile.gettempdir(), filename)`; returns the path and
the updated filesystem. -/
def create_pdf (O : Oracles) (mcqs : List Char) (filename : List Char) (fs : Fs) :
    List Char × Fs :=
  let temp_path := pyJoin O.tmpdir filename
  (temp_path, insertFs temp_path (.artifact (renderedBlocks mcqs)) fs)

/-- Python truthiness of the extractor's return value as used by
`if not text`: `None` and the empty string are falsy. -/
def textFalsy : Option (List Char) → Bool
  | none => true
  | some t => decide (t = [])

/-- `int(request.form.get('num_questions', 5))`: the field's value
coerced to an integer, defaulting to 5 when absent; a non-integer-like
value raises `ValueError`. -/
def parsedCount (req : Request) : Except PyErr Int :=
  match req.num_questions with
  | none => .ok 5
  | some s =>
    match pyInt s with
    | some n => .ok n
    | none => .error .valueError

/-- The generated document's filename
`f"generated_mcqs_{base_name}.pdf"` with
`base_name = filename.rsplit('.', 1)[0]`. -/
def genName (filename : List Char) : List Char :=
  "generated_mcqs_".toList ++ baseName filename ++ ".pdf".toList

/-- The body of the handler's `try` block after the upload has been
saved, together with the `except Exception` clause: any raised
`PyErr` becomes a 500 response.  Returns the response and the
filesystem before the `finally` cleanup. -/
def tryBody (O : Oracles) (req : Request) (path filename : List Char) (fs1 : Fs) :
    Response × Fs :=
  match extract_text_from_file fs1 path with
  | .error e => (.json 500 (genericMsg e), fs1)
  | .ok t =>
    if textFalsy t then (.json 400 couldNotExtractMsg, fs1)
    else
      match parsedCount req with
      | .error e => (.json 500 (genericMsg e), fs1)
      | .ok n =>
        match generate_mcqs_with_gemini O (t.getD []) n with
        | .error e => (.json 500 (genericMsg e), fs1)
        | .ok mcqs =>
          let pdf_filename := genName filename
          let res := create_pdf O mcqs pdf_filename fs1
          (.html mcqs pdf_filename, res.2)

/-- The `finally` block: remove the saved upload if it still exists,
suppressing any error from `os.remove` (on which the filesystem is left
unchanged). -/
def cleanup (O : Oracles) (path : List Char) (fs : Fs) : Fs :=
  if O.removeFails path then fs else removeFs path fs

/-- The scratch path the upload is saved to:
`os.path.join(tempfile.gettempdir(), secure_filename(file.filename))`. -/
def uploadPathOf (O : Oracles) (f : UploadedFile) : List Char :=
  pyJoin O.tmpdir (O.secure f.filename)

/-- The `/generate` handler `generate_mcqs`: reject a missing `file`
part, reject a falsy file or disallowed filename, save the upload to
scratch storage, run the `try` body, and always run the cleanup before
responding. -/
def generate_mcqs (O : Oracles) (req : Request) (fs : Fs) : Response × Fs :=
  match req.file with
  | none => (.json 400 noFileMsg, fs)
  | some f =>
    if f.filename = [] ∨ allowed_file f.filename = false then
      (.json 400 invalidFormatMsg, fs)
    else
      let filename := O.secure f.filename
      let temp_upload_path := pyJoin O.tmpdir filename
      let fs1 := insertFs temp_upload_path (.upload f.content) fs
      let res := tryBody O req temp_upload_path filename fs1
      (res.1, cleanup O temp_upload_path res.2)

/-! ### General lemmas about the embedded primitives -/

theorem hasDot_iff (s : List Char) : hasDot s = true ↔ '.' ∈ s := by
  simp [hasDot, List.any_eq_true]

theorem takeWhile_append_cons (p : Char → Bool) (l₁ : List Char) (x : Char)
    (l₂ : List Char) (h₁ : ∀ y ∈ l₁, p y = true) (hx : p x = false) :
    List.takeWhile p (l₁ ++ x :: l₂) = l₁ := by
  induction l₁ with
  | nil => simp [List.takeWhile_cons, hx]
  | cons a as ih =>
    have ha : p a = true := h₁ a (by simp)
    simp only [List.cons_append, List.takeWhile_cons, ha, if_true]
    rw [ih (fun y hy => h₁ y (by simp [hy]))]

theorem dropWhile_head_false (p : Char → Bool) (l : List Char) (c : Char)
    (rest : List Char) (h : List.dropWhile p l = c :: rest) : p c = false := by
  induction l with
  | nil => simp [List.dropWhile] at h
  | cons a as ih =>
    rw [List.dropWhile_cons] at h
    by_cases hp : p a = true
    · rw [if_pos hp] at h
      exact ih h
    · rw [if_neg hp] at h
      cases h
      exact Bool.eq_false_iff.mpr hp

/-- When the string contains a dot, `rsplit('.', 1)` really decomposes it
around its last dot, and the extension part is dot-free. -/
theorem dot_decomp (fn : List Char) (h : hasDot fn = true) :
    fn = baseName fn ++ '.' :: extAfterLastDot fn ∧ '.' ∉ extAfterLastDot fn := by
  have hmem : '.' ∈ fn.reverse := List.mem_reverse.mpr ((hasDot_iff fn).mp h)
  set p : Char → Bool := fun c => decide (c ≠ '.') with hp
  have hne : List.dropWhile p fn.reverse ≠ [] := by
    intro hnil
    have := List.dropWhile_eq_nil_iff.mp hnil '.' hmem
    simp [hp] at this
  obtain ⟨c, rest, hcr⟩ := List.exists_cons_of_ne_nil hne
  have hc : c = '.' := by
    have := dropWhile_head_false p fn.reverse c rest hcr
    simpa [hp] using this
  subst hc
  have hsplit : List.takeWhile p fn.reverse ++ '.' :: rest = fn.reverse := by
    rw [← hcr]; exact List.takeWhile_append_dropWhile p fn.reverse
  constructor
  · have hbase : baseName fn = rest.reverse := by
      simp only [baseName, h, if_true, hcr, List.tail_cons]
    have hext : extAfterLastDot fn = (List.takeWhile p fn.reverse).reverse := rfl
    calc fn = (List.takeWhile p fn.reverse ++ '.' :: rest).reverse := by
          rw [hsplit, List.reverse_reverse]
    _ = rest.reverse ++ '.' :: (List.takeWhile p fn.reverse).reverse := by
          rw [List.reverse_append, List.reverse_cons, List.append_assoc,
            List.singleton_append]
    _ = baseName fn ++ '.' :: extAfterLastDot fn := by rw [hbase, hext]
  · intro hdot
    have := List.mem_takeWhile_imp (List.mem_reverse.mp hdot)
    simp [hp] at this

/-- Conversely, any decomposition of the string around a dot with a
dot-free tail identifies the tail as `extAfterLastDot`. -/
theorem extAfterLastDot_of_decomp (a e : List Char) (he : '.' ∉ e) :
    extAfterLastDot (a ++ '.' :: e) = e ∧ hasDot (a ++ '.' :: e) = true := by
  constructor
  · unfold extAfterLastDot
    rw [List.reverse_append, List.reverse_cons, List.append_assoc, List.singleton_append]
    rw [takeWhile_append_cons _ _ _ _ (fun y hy => by
      have : y ∈ e := List.mem_reverse.mp hy
      simp only [decide_eq_true_eq]
      intro hEq; exact he (hEq ▸ this)) (by simp)]
    exact List.reverse_reverse e
  · rw [hasDot_iff]
    exact List.mem_append.mpr (Or.inr (by simp))

/-- The generated document's name never collides with the (sanitized)
upload name it is derived from. -/
theorem genName_ne (fn : List Char) : genName fn ≠ fn := by
  intro hEq
  by_cases hd : hasDot fn = true
  · obtain ⟨hdec, hfree⟩ := dot_decomp fn hd
    set B := baseName fn with hB
    set E := extAfterLastDot fn with hE
    have hlist : "generated_mcqs_".toList ++ B ++ ".pdf".toList = B ++ '.' :: E := by
      have : genName fn = B ++ '.' :: E := hEq.trans hdec
      simpa [genName, hB, hE] using this
    have hlen : E.length = 18 := by
      have hl := congrArg List.length hlist
      simp only [List.length_append, List.length_cons] at hl
      have h15 : ("generated_mcqs_".toList).length = 15 := rfl
      have h4 : (".pdf".toList).length = 4 := rfl
      omega
    have hrev := congrArg List.reverse hlist
    simp only [List.reverse_append, List.reverse_cons, List.append_assoc,
      List.singleton_append] at hrev
    have hS : (".pdf".toList).reverse = ['f', 'd', 'p', '.'] := rfl
    rw [hS] at hrev
    have htake := congrArg (List.take 4) hrev
    rw [List.take_append_of_le_length (by decide),
      List.take_append_of_le_length (by simp [hlen])] at htake
    have hmem : '.' ∈ List.take 4 E.reverse := by
      rw [← htake]; decide
    have : '.' ∈ E := List.mem_reverse.mp (List.take_subset 4 E.reverse hmem)
    exact hfree this
  · have : hasDot fn = true := by
      rw [hasDot_iff, ← hEq, genName]
      exact List.mem_append.mpr (Or.inr (by simp))
    exact hd this

theorem lookupFs_removeFs_self (p : List Char) (fs : Fs) :
    lookupFs p (removeFs p fs) = none := by
  induction fs with
  | nil => rfl
  | cons e rest ih =>
    rw [removeFs]
    by_cases hEq : e.1 = p
    · rw [if_pos hEq]; exact ih
    · rw [if_neg hEq, lookupFs, if_neg hEq]; exact ih

theorem lookupFs_removeFs_ne (p q : List Char) (fs : Fs) (h : q ≠ p) :
    lookupFs q (removeFs p fs) = lookupFs q fs := by
  induction fs with
  | nil => rfl
  | cons e rest ih =>
    rw [removeFs]
    by_cases hEq : e.1 = p
    · rw [if_pos hEq, lookupFs, if_neg (fun hq : e.1 = q => h (hq.symm.trans hEq))]
      exact ih
    · rw [if_neg hEq, lookupFs, lookupFs]
      by_cases hq : e.1 = q
      · rw [if_pos hq, if_pos hq]
      · rw [if_neg hq, if_neg hq]; exact ih

theorem lookupFs_insertFs_self (p : List Char) (d : FileNode) (fs : Fs) :
    lookupFs p (insertFs p d fs) = some d := by
  rw [insertFs, lookupFs, if_pos rfl]

theorem lookupFs_insertFs_ne (p q : List Char) (d : FileNode) (fs : Fs)
    (h : q ≠ p) : lookupFs q (insertFs p d fs) = lookupFs q fs := by
  rw [insertFs, lookupFs, if_neg (fun hq : p = q => h hq.symm)]
  exact lookupFs_removeFs_ne p q fs h

theorem filterMap_strip_eq_filter_map (l : List (List Char)) :
    (l.filterMap (fun mcq =>
      let s := pyStrip mcq
      if s = [] then none else some s)) =
    (l.filter (fun mcq => decide (pyStrip mcq ≠ []))).map pyStrip := by
  induction l with
  | nil => rfl
  | cons m rest ih =>
    by_cases hm : pyStrip m = []
    · simp [List.filterMap_cons, List.filter_cons, hm, ih]
    · simp [List.filterMap_cons, List.filter_cons, hm, ih]

/-- PDF extraction read as the spec reads it: each page contributes its
text (a page yielding nothing contributes nothing) and the pages are
concatenated in order with no separator. -/
theorem pagesText_eq_getD_flatten (pages : List (Option (List Char))) :
    pagesText pages = (pages.map (fun o => o.getD [])).flatten := by
  induction pages with
  | nil => rfl
  | cons o rest ih =>
    cases o with
    | none => simpa [pagesText, List.filterMap_cons] using ih
    | some t =>
      by_cases ht : t = []
      · simp only [pagesText, List.filterMap_cons, ht, if_pos rfl] at ih ⊢
        simpa [ht] using ih
      · simp only [pagesText, List.filterMap_cons, if_neg ht, List.map_cons,
          List.flatten_cons, List.flatten] at ih ⊢
        simp [ih]

/-! ### Claim theorems -/

/-- Spec-side reading of the File Validator contract: the filename splits
around a last `'.'` (the suffix after it containing no further dot) and
that suffix, lower-cased, is in the allow-list `{pdf, txt, docx}`. -/
def specAllowedFilename (fn : List Char) : Prop :=
  ∃ a e, fn = a ++ '.' :: e ∧ '.' ∉ e ∧ pyLower e ∈ allowedExtensions

/-- C2: `allowed_file` returns true iff the filename contains a `'.'` and
the substring after the last `'.'`, lower-cased, is one of
`{pdf, txt, docx}`; filenames with no dot or an extension outside the
allow-list are rejected.  (`allowed_file` is a pure Lean function, so the
absence of side effects is inherent in the embedding.) -/
theorem allowed_file_iff_spec (fn : List Char) :
    allowed_file fn = true ↔ specAllowedFilename fn := by
  constructor
  · intro h
    rw [allowed_file, Bool.and_eq_true] at h
    obtain ⟨hdot, hext⟩ := h
    obtain ⟨hdec, hfree⟩ := dot_decomp fn hdot
    exact ⟨baseName fn, extAfterLastDot fn, hdec, hfree,
      of_decide_eq_true hext⟩
  · rintro ⟨a, e, rfl, hfree, hmem⟩
    obtain ⟨hextEq, hdot⟩ := extAfterLastDot_of_decomp a e hfree
    rw [allowed_file, Bool.and_eq_true]
    exact ⟨hdot, by rw [hextEq]; exact decide_eq_true hmem⟩

/-- C5: the Result Renderer splits the raw text on the literal marker
`"## MCQ"` and renders exactly the segments whose stripped content is
non-empty (each as a stripped wrapped block); in particular a text with
two blocks separated by the marker yields exactly those two non-empty
rendered segments. -/
theorem renderedBlocks_spec :
    (∀ mcqs : List Char,
      renderedBlocks mcqs =
        ((pySplit mcqs marker).filter
          (fun m => decide (pyStrip m ≠ []))).map pyStrip) ∧
    renderedBlocks "Block one text ## MCQ Block two text".toList =
      ["Block one text".toList, "Block two text".toList] := by
  constructor
  · intro mcqs
    exact filterMap_strip_eq_filter_map (pySplit mcqs marker)
  · decide

/-- C6: for a readable PDF, extraction returns the pages' texts
concatenated in page order with no separator, pages yielding nothing
contributing nothing. -/
theorem extract_pdf_concat (fs : Fs) (p : List Char) (fc : FileContent)
    (pages : List (Option (List Char)))
    (hdot : hasDot p = true)
    (hext : pyLower (extAfterLastDot p) = "pdf".toList)
    (hlook : lookupFs p fs = some (.upload fc))
    (hpdf : fc.asPdf = some pages) :
    extract_text_from_file fs p = .ok (some (pagesText pages)) ∧
    pagesText pages = (pages.map (fun o => o.getD [])).flatten := by
  refine ⟨?_, pagesText_eq_getD_flatten pages⟩
  simp [extract_text_from_file, hdot, hext, hlook, hpdf]

/-- Witness for C6: a two-page PDF with page texts "P1" and "P2" extracts
to exactly "P1P2". -/
theorem extract_pdf_concat_witness :
    extract_text_from_file
      [("doc.pdf".toList,
        FileNode.upload ⟨some [some "P1".toList, some "P2".toList], none, none⟩)]
      "doc.pdf".toList = .ok (some "P1P2".toList) := by
  have h := (extract_pdf_concat
    [("doc.pdf".toList,
      FileNode.upload ⟨some [some "P1".toList, some "P2".toList], none, none⟩)]
    "doc.pdf".toList
    ⟨some [some "P1".toList, some "P2".toList], none, none⟩
    [some "P1".toList, some "P2".toList]
    (by decide) (by decide) (by decide) rfl).1
  rw [h, show pagesText [some "P1".toList, some "P2".toList] = "P1P2".toList from by decide]

/-- C7: for a readable DOCX, extraction returns all paragraph texts in
document order joined with a single space; the join satisfies the
expected single-space recurrence. -/
theorem extract_docx_join (fs : Fs) (p : List Char) (fc : FileContent)
    (paras : List (List Char))
    (hdot : hasDot p = true)
    (hext : pyLower (extAfterLastDot p) = "docx".toList)
    (hlook : lookupFs p fs = some (.upload fc))
    (hdocx : fc.asDocx = some paras) :
    extract_text_from_file fs p = .ok (some (spaceJoin paras)) ∧
    (∀ a : List Char, ∀ b : List Char, ∀ rest : List (List Char),
      spaceJoin (a :: b :: rest) = a ++ ' ' :: spaceJoin (b :: rest)) ∧
    (∀ a : List Char, spaceJoin [a] = a) := by
  refine ⟨?_, ?_, ?_⟩
  · have hne : pyLower (extAfterLastDot p) ≠ "pdf".toList := by
      rw [hext]; decide
    simp [extract_text_from_file, hdot, hext, hne, hlook, hdocx]
  · intro a b rest
    simp [spaceJoin, List.intercalate, List.intersperse]
  · intro a
    simp [spaceJoin, List.intercalate, List.intersperse]

/-- Witness for C7: paragraphs ["Hello", "World"] extract to
"Hello World". -/
theorem extract_docx_join_witness :
    extract_text_from_file
      [("notes.docx".toList,
        FileNode.upload ⟨none, some ["Hello".toList, "World".toList], none⟩)]
      "notes.docx".toList = .ok (some "Hello World".toList) := by
  have h := (extract_docx_join
    [("notes.docx".toList,
      FileNode.upload ⟨none, some ["Hello".toList, "World".toList], none⟩)]
    "notes.docx".toList
    ⟨none, some ["Hello".toList, "World".toList], none⟩
    ["Hello".toList, "World".toList]
    (by decide) (by decide) (by decide) rfl).1
  rw [h, show spaceJoin ["Hello".toList, "World".toList] = "Hello World".toList from by decide]

/-- C8: for a `.txt` file whose bytes decode as UTF-8, extraction returns
exactly the decoded contents, unmodified. -/
theorem extract_txt_exact (fs : Fs) (p : List Char) (fc : FileContent)
    (s : List Char)
    (hdot : hasDot p = true)
    (hext : pyLower (extAfterLastDot p) = "txt".toList)
    (hlook : lookupFs p fs = some (.upload fc))
    (htxt : fc.asTxt = some s) :
    extract_text_from_file fs p = .ok (some s) := by
  have hne1 : pyLower (extAfterLastDot p) ≠ "pdf".toList := by
    rw [hext]; decide
  have hne2 : pyLower (extAfterLastDot p) ≠ "docx".toList := by
    rw [hext]; decide
  simp [extract_text_from_file, hdot, hext, hne1, hne2, hlook, htxt]

/-- Witness for C8: a text upload with known content extracts to exactly
that content. -/
theorem extract_txt_exact_witness :
    extract_text_from_file
      [("a.txt".toList,
        FileNode.upload ⟨none, none, some "known content".toList⟩)]
      "a.txt".toList = .ok (some "known content".toList) :=
  extract_txt_exact
    [("a.txt".toList, FileNode.upload ⟨none, none, some "known content".toList⟩)]
    "a.txt".toList
    ⟨none, none, some "known content".toList⟩
    "known content".toList
    (by decide) (by decide) (by decide) rfl

/-- C3 counterexample: a corrupt PDF upload (its parse raises inside
`pdfplumber.open`) makes `extract_text_from_file` raise rather than
return a null/empty result — the function body has no try/except, so the
claim that unreadable/corrupt inputs become a null result is false. -/
theorem extract_corrupt_raises_cex :
    extract_text_from_file
      [("bad.pdf".toList, FileNode.upload ⟨none, none, none⟩)]
      "bad.pdf".toList = .error .pdfParseError ∧
    ∀ o : Option (List Char),
      extract_text_from_file
        [("bad.pdf".toList, FileNode.upload ⟨none, none, none⟩)]
        "bad.pdf".toList ≠ .ok o := by
  have hval : extract_text_from_file
      [("bad.pdf".toList, FileNode.upload ⟨none, none, none⟩)]
      "bad.pdf".toList = .error .pdfParseError := by rfl
  refine ⟨hval, ?_⟩
  intro o h
  rw [hval] at h
  exact Except.noConfusion h

/-- C3 amended: only an unsupported extension yields the null (`None`)
result; a dotless path, a missing/unreadable file, a corrupt PDF or DOCX,
and a non-UTF-8 `.txt` all raise, the exception propagating to the
caller. -/
theorem extract_error_behaviour (fs : Fs) (p : List Char) :
    (hasDot p = false → extract_text_from_file fs p = .error .indexError) ∧
    (hasDot p = true →
      pyLower (extAfterLastDot p) ∉ allowedExtensions →
      extract_text_from_file fs p = .ok none) ∧
    (∀ fc : FileContent, hasDot p = true →
      pyLower (extAfterLastDot p) = "pdf".toList →
      lookupFs p fs = some (.upload fc) → fc.asPdf = none →
      extract_text_from_file fs p = .error .pdfParseError) ∧
    (∀ fc : FileContent, hasDot p = true →
      pyLower (extAfterLastDot p) = "docx".toList →
      lookupFs p fs = some (.upload fc) → fc.asDocx = none →
      extract_text_from_file fs p = .error .docxParseError) ∧
    (∀ fc : FileContent, hasDot p = true →
      pyLower (extAfterLastDot p) = "txt".toList →
      lookupFs p fs = some (.upload fc) → fc.asTxt = none →
      extract_text_from_file fs p = .error .unicodeDecodeError) ∧
    (hasDot p = true →
      pyLower (extAfterLastDot p) ∈ allowedExtensions →
      lookupFs p fs = none →
      extract_text_from_file fs p = .error .ioError) := by
  refine ⟨?_, ?_, ?_, ?_, ?_, ?_⟩
  · intro h
    simp [extract_text_from_file, h]
  · intro hdot hnot
    have h1 : pyLower (extAfterLastDot p) ≠ ['p', 'd', 'f'] :=
      fun hh => hnot (by rw [hh]; decide)
    have h2 : pyLower (extAfterLastDot p) ≠ ['d', 'o', 'c', 'x'] :=
      fun hh => hnot (by rw [hh]; decide)
    have h3 : pyLower (extAfterLastDot p) ≠ ['t', 'x', 't'] :=
      fun hh => hnot (by rw [hh]; decide)
    simp [extract_text_from_file, hdot, h1, h2, h3]
  · intro fc hdot hext hlook hpdf
    simp [extract_text_from_file, hdot, hext, hlook, hpdf]
  · intro fc hdot hext hlook hdocx
    have hne : pyLower (extAfterLastDot p) ≠ "pdf".toList := by
      rw [hext]; decide
    simp [extract_text_from_file, hdot, hext, hne, hlook, hdocx]
  · intro fc hdot hext hlook htxt
    have hne1 : pyLower (extAfterLastDot p) ≠ "pdf".toList := by
      rw [hext]; decide
    have hne2 : pyLower (extAfterLastDot p) ≠ "docx".toList := by
      rw [hext]; decide
    simp [extract_text_from_file, hdot, hext, hne1, hne2, hlook, htxt]
  · intro hdot hmem hlook
    simp only [allowedExtensions, List.mem_cons, List.not_mem_nil,
      or_false] at hmem
    rcases hmem with h | h | h
    · simp [extract_text_from_file, hdot, h, hlook]
    · have hne1 : pyLower (extAfterLastDot p) ≠ "pdf".toList := by
        rw [h]; decide
      have hne2 : pyLower (extAfterLastDot p) ≠ "docx".toList := by
        rw [h]; decide
      simp [extract_text_from_file, hdot, h, hne1, hne2, hlook]
    · have hne : pyLower (extAfterLastDot p) ≠ "pdf".toList := by
        rw [h]; decide
      simp [extract_text_from_file, hdot, h, hne, hlook]

/-- C4: a POST `/generate` whose form has no `file` part gets the 400
response with body `{"error": "No file uploaded."}` and the scratch
filesystem is returned untouched (nothing was written). -/
theorem no_file_400 (O : Oracles) (req : Request) (fs : Fs)
    (h : req.file = none) :
    generate_mcqs O req fs = (.json 400 noFileMsg, fs) := by
  simp [generate_mcqs, h]

/-- A fixed concrete environment used by the handler witnesses. -/
def oracleFix : Oracles :=
  ⟨"/tmp".toList, fun s => s,
   fun _ => .ok "## MCQ\nQuestion: Q?\nA) a\nB) b\nC) c\nD) d\nCorrect Answer: A".toList,
   fun _ => false⟩

/-- Witness for C4 at the empty filesystem and a file-less request. -/
theorem no_file_400_witness :
    generate_mcqs oracleFix ⟨none, none⟩ [] = (.json 400 noFileMsg, []) :=
  no_file_400 oracleFix ⟨none, none⟩ [] rfl

/-- Once the request has a valid file part, the handler is exactly: save
the upload, run the try body, clean up, respond. -/
theorem generate_mcqs_shape (O : Oracles) (req : Request) (fs : Fs)
    (f : UploadedFile) (hf : req.file = some f)
    (hname : f.filename ≠ []) (hall : allowed_file f.filename = true) :
    generate_mcqs O req fs =
      ((tryBody O req (uploadPathOf O f) (O.secure f.filename)
          (insertFs (uploadPathOf O f) (.upload f.content) fs)).1,
       cleanup O (uploadPathOf O f)
         (tryBody O req (uploadPathOf O f) (O.secure f.filename)
           (insertFs (uploadPathOf O f) (.upload f.content) fs)).2) := by
  have hcond : ¬ (f.filename = [] ∨ allowed_file f.filename = false) := by
    rintro (h1 | h2)
    · exact hname h1
    · rw [hall] at h2; cases h2
  simp only [generate_mcqs, hf, if_neg hcond]
  rfl

/-- The upload path never coincides with the generated document's path
(for a non-absolute sanitized filename, as `secure_filename` produces). -/
theorem pyJoin_genName_ne (tmp fn : List Char) (hb : fn.head? ≠ some '/') :
    pyJoin tmp (genName fn) ≠ pyJoin tmp fn := by
  have hgh : (genName fn).head? = some 'g' := rfl
  intro hEq
  rw [pyJoin, pyJoin, if_neg (by rw [hgh]; decide), if_neg hb] at hEq
  by_cases hl : tmp.getLast? = some '/'
  · rw [if_pos hl, if_pos hl] at hEq
    exact genName_ne fn (List.append_cancel_left hEq)
  · rw [if_neg hl, if_neg hl] at hEq
    have hc := List.append_cancel_left hEq
    injection hc with _ hc'
    exact genName_ne fn hc'

/-- C1: whenever the upload was persisted (the request has a file part
with a truthy, allowed filename), the handler's `finally` block removes
the scratch copy on every outcome — the quantification over oracles and
filesystems covers the success, 400-extraction-failure and
500-generation-error outcomes — provided `os.remove` itself does not
raise; and if `os.remove` does raise, the error is suppressed: the
response is identical to the one produced when removal succeeds. -/
theorem upload_cleanup_guaranteed (O : Oracles) (req : Request) (fs : Fs)
    (f : UploadedFile) (hf : req.file = some f)
    (hname : f.filename ≠ []) (hall : allowed_file f.filename = true) :
    (O.removeFails (uploadPathOf O f) = false →
      lookupFs (uploadPathOf O f) (generate_mcqs O req fs).2 = none) ∧
    (generate_mcqs O req fs).1 =
      (generate_mcqs ⟨O.tmpdir, O.secure, O.generate_content, fun _ => false⟩
        req fs).1 := by
  constructor
  · intro hrf
    rw [generate_mcqs_shape O req fs f hf hname hall]
    simp only [cleanup, hrf, Bool.false_eq_true, if_false]
    exact lookupFs_removeFs_self _ _
  · rw [generate_mcqs_shape O req fs f hf hname hall,
      generate_mcqs_shape ⟨O.tmpdir, O.secure, O.generate_content, fun _ => false⟩
        req fs f hf hname hall]
    rfl

/-- Witness for C1: a successful concrete run leaves no scratch copy of
the upload, and the response matches the removal-always-succeeds run. -/
theorem upload_cleanup_guaranteed_witness :
    (oracleFix.removeFails
        (uploadPathOf oracleFix ⟨"notes.txt".toList, ⟨none, none, some "hello".toList⟩⟩) = false →
      lookupFs
        (uploadPathOf oracleFix ⟨"notes.txt".toList, ⟨none, none, some "hello".toList⟩⟩)
        (generate_mcqs oracleFix
          ⟨some ⟨"notes.txt".toList, ⟨none, none, some "hello".toList⟩⟩, none⟩ []).2 = none) ∧
    (generate_mcqs oracleFix
      ⟨some ⟨"notes.txt".toList, ⟨none, none, some "hello".toList⟩⟩, none⟩ []).1 =
    (generate_mcqs
      ⟨oracleFix.tmpdir, oracleFix.secure, oracleFix.generate_content, fun _ => false⟩
      ⟨some ⟨"notes.txt".toList, ⟨none, none, some "hello".toList⟩⟩, none⟩ []).1 :=
  upload_cleanup_guaranteed oracleFix
    ⟨some ⟨"notes.txt".toList, ⟨none, none, some "hello".toList⟩⟩, none⟩ []
    ⟨"notes.txt".toList, ⟨none, none, some "hello".toList⟩⟩
    rfl (by decide) (by decide)

/-- C9: the question count comes from the `num_questions` form field,
defaulting to 5 when the field is absent and coerced to an integer when
present; a non-integer-like value makes the coercion raise, which the
handler boundary reports as the generic 500 server error (not a 400),
followed by the cleanup of the scratch upload. -/
theorem question_count_semantics (O : Oracles) (req : Request) (fs : Fs)
    (f : UploadedFile) (s : List Char) (t : Option (List Char))
    (hf : req.file = some f) (hname : f.filename ≠ [])
    (hall : allowed_file f.filename = true)
    (hext : extract_text_from_file
      (insertFs (uploadPathOf O f) (.upload f.content) fs)
      (uploadPathOf O f) = .ok t)
    (htruthy : textFalsy t = false)
    (hfield : req.num_questions = some s) (hbad : pyInt s = none) :
    (∀ r : Request, r.num_questions = none → parsedCount r = .ok 5) ∧
    (∀ r : Request, ∀ v : List Char, ∀ n : Int,
      r.num_questions = some v → pyInt v = some n → parsedCount r = .ok n) ∧
    (generate_mcqs O req fs).1 = .json 500 (genericMsg .valueError) ∧
    (O.removeFails (uploadPathOf O f) = false →
      lookupFs (uploadPathOf O f) (generate_mcqs O req fs).2 = none) := by
  refine ⟨?_, ?_, ?_, ?_⟩
  · intro r hr
    simp [parsedCount, hr]
  · intro r v n hr hn
    simp [parsedCount, hr, hn]
  · rw [generate_mcqs_shape O req fs f hf hname hall]
    simp only [tryBody, hext, htruthy, Bool.false_eq_true, if_false,
      parsedCount, hfield, hbad]
  · intro hrf
    rw [generate_mcqs_shape O req fs f hf hname hall]
    simp only [cleanup, hrf, Bool.false_eq_true, if_false]
    exact lookupFs_removeFs_self _ _

/-- Witness for C9: `num_questions=abc` on an otherwise valid request
yields the generic 500 and the scratch upload is removed. -/
theorem question_count_semantics_witness :
    (generate_mcqs oracleFix
      ⟨some ⟨"a.txt".toList, ⟨none, none, some "hello".toList⟩⟩,
       some "abc".toList⟩ []).1 = .json 500 (genericMsg .valueError) ∧
    lookupFs (uploadPathOf oracleFix ⟨"a.txt".toList, ⟨none, none, some "hello".toList⟩⟩)
      (generate_mcqs oracleFix
        ⟨some ⟨"a.txt".toList, ⟨none, none, some "hello".toList⟩⟩,
         some "abc".toList⟩ []).2 = none := by
  have h := question_count_semantics oracleFix
    ⟨some ⟨"a.txt".toList, ⟨none, none, some "hello".toList⟩⟩, some "abc".toList⟩
    [] ⟨"a.txt".toList, ⟨none, none, some "hello".toList⟩⟩
    "abc".toList (some "hello".toList)
    rfl (by decide) (by decide) rfl rfl rfl rfl
  exact ⟨h.2.2.1, h.2.2.2 rfl⟩

/-- C10: on a successful request the handler's response references the
generated document `generated_mcqs_<basename>.pdf`, and that document is
still on scratch storage when the response is returned: cleanup removes
only the uploaded file's scratch copy (the two paths never collide). -/
theorem success_artifact_persists (O : Oracles) (req : Request) (fs : Fs)
    (f : UploadedFile) (t g : List Char) (n : Int)
    (hf : req.file = some f) (hname : f.filename ≠ [])
    (hall : allowed_file f.filename = true)
    (hrel : (O.secure f.filename).head? ≠ some '/')
    (hext : extract_text_from_file
      (insertFs (uploadPathOf O f) (.upload f.content) fs)
      (uploadPathOf O f) = .ok (some t))
    (ht : t ≠ [])
    (hn : parsedCount req = .ok n)
    (hg : O.generate_content (buildPrompt t n) = .ok g) :
    (generate_mcqs O req fs).1 =
      .html (pyStrip g) (genName (O.secure f.filename)) ∧
    lookupFs (pyJoin O.tmpdir (genName (O.secure f.filename)))
      (generate_mcqs O req fs).2 =
      some (.artifact (renderedBlocks (pyStrip g))) := by
  have hpath : pyJoin O.tmpdir (genName (O.secure f.filename)) ≠ uploadPathOf O f :=
    pyJoin_genName_ne O.tmpdir (O.secure f.filename) hrel
  have htf : textFalsy (some t) = false := by
    simp [textFalsy, ht]
  have hshape := generate_mcqs_shape O req fs f hf hname hall
  have htry : tryBody O req (uploadPathOf O f) (O.secure f.filename)
      (insertFs (uploadPathOf O f) (.upload f.content) fs) =
      (.html (pyStrip g) (genName (O.secure f.filename)),
       insertFs (pyJoin O.tmpdir (genName (O.secure f.filename)))
         (.artifact (renderedBlocks (pyStrip g)))
         (insertFs (uploadPathOf O f) (.upload f.content) fs)) := by
    simp only [tryBody, hext, htf, Bool.false_eq_true, if_false, hn,
      generate_mcqs_with_gemini, Option.getD, hg, create_pdf]
  constructor
  · rw [hshape, htry]
  · rw [hshape, htry]
    simp only [cleanup]
    by_cases hrf : O.removeFails (uploadPathOf O f) = true
    · rw [if_pos hrf]
      exact lookupFs_insertFs_self _ _ _
    · rw [if_neg hrf, lookupFs_removeFs_ne _ _ _ hpath]
      exact lookupFs_insertFs_self _ _ _

/-- Witness for C10: a concrete successful run returns the results view
for `generated_mcqs_notes.pdf` and that artifact is present in the final
filesystem. -/
theorem success_artifact_persists_witness :
    (generate_mcqs oracleFix
      ⟨some ⟨"notes.txt".toList, ⟨none, none, some "hello".toList⟩⟩,
       some "3".toList⟩ []).1 =
      .html
        (pyStrip "## MCQ\nQuestion: Q?\nA) a\nB) b\nC) c\nD) d\nCorrect Answer: A".toList)
        (genName (oracleFix.secure "notes.txt".toList)) ∧
    lookupFs (pyJoin oracleFix.tmpdir (genName (oracleFix.secure "notes.txt".toList)))
      (generate_mcqs oracleFix
        ⟨some ⟨"notes.txt".toList, ⟨none, none, some "hello".toList⟩⟩,
         some "3".toList⟩ []).2 =
      some (.artifact (renderedBlocks
        (pyStrip "## MCQ\nQuestion: Q?\nA) a\nB) b\nC) c\nD) d\nCorrect Answer: A".toList))) :=
  success_artifact_persists oracleFix
    ⟨some ⟨"notes.txt".toList, ⟨none, none, some "hello".toList⟩⟩, some "3".toList⟩
    [] ⟨"notes.txt".toList, ⟨none, none, some "hello".toList⟩⟩
    "hello".toList
    "## MCQ\nQuestion: Q?\nA) a\nB) b\nC) c\nD) d\nCorrect Answer: A".toList 3
    rfl (by decide) (by decide) (by decide) rfl (by decide) rfl rfl

end Mcq
